import Mathlib

/-!
Verification development for the `DeviceLife` data retriever
(`src/data_retriever.py`).

Timestamps and signal values are modelled as rationals (`ℚ`); the Python
floats carry no claim-relevant rounding behaviour.  NumPy's NaN "no value"
marker is modelled by `Option ℚ` (`none` = NaN).  A fetch failure produces
an empty pandas DataFrame `{}`, modelled as `none : Option RawSignal`.
Exceptions and early `return`s of the Python code are modelled by explicit
outcome constructors.
-/

namespace DeviceLife

/-- One signal's raw samples, the `{'secs': ..., 'vals': ...}` dict built by
`DataRetriever.get_history` (timestamps and values, columns of equal
length). -/
structure RawSignal where
  secs : List ℚ
  vals : List ℚ
deriving Repr, DecidableEq

/-- The `alignSetup` dictionary of `DataRetriever` (keys `base_id`,
`base_pv`, `val_range`, `disTimeAddBack_sec`, `dtResample_sec`, `Trim`). -/
structure AlignSetup where
  base_id : ℤ
  base_pv : String
  val_range : List (ℚ × ℚ)
  disTimeAddBack_sec : ℚ
  dtResample_sec : ℚ
  Trim : Bool
deriving Repr, DecidableEq

/-- The synchronized dataset produced by a successful `alignHistory` run:
the logged start timestamp, the final (resampled) relative time axis, one
row of optional values per configured PV, and the `duration_hour`
attribute. -/
structure AlignedData where
  startTime : ℚ
  relTime : List ℚ
  vals : List (List (Option ℚ))
  duration_hour : ℚ
deriving Repr, DecidableEq

/-- The `__synData` attribute.  `emptyList` is the constructor default `[]`;
`skeleton` is the dict `{'startTime': None, 'relTime': [], 'vals': [],
'duration_hour': None}` assigned at the top of `alignHistory` (all
intermediate partially-filled states of that dict are also modelled as
`skeleton`, since no claim distinguishes them); `dataset` is a completed
aligned DataFrame. -/
inductive StoredSyn where
  | emptyList : StoredSyn
  | skeleton : StoredSyn
  | dataset : AlignedData → StoredSyn
deriving Repr, DecidableEq

/-- How a call to `alignHistory` ends: normal completion with a dataset,
an early `return` after printing a message, or a propagated Python
exception. -/
inductive AlignOutcome where
  | ok : AlignedData → AlignOutcome
  | earlyReturn : String → AlignOutcome
  | raise : String → AlignOutcome
deriving Repr, DecidableEq

/-- The `__rawData` dict after `getHistory`: PV name to either a fetched
signal or the empty frame `{}` recorded for a failed fetch (`none`). -/
abbrev RawDataset := List (String × Option RawSignal)

/-- Python dict lookup `self.__rawData[pv]` (outer `none` = `KeyError`). -/
def lookupPV (d : RawDataset) (pv : String) : Option (Option RawSignal) :=
  (d.find? (fun p => p.1 == pv)).map Prod.snd

/-! ## Fetcher: the post-service processing of `DataRetriever.get_history`
(lines 255-290): boundary-sample insertion, sort, window filter. -/

/-- `np.searchsorted(secs, x, side='left')` on a sorted array: the number
of elements strictly below `x`. -/
def searchsortedLeft (l : List ℚ) (x : ℚ) : ℕ :=
  l.countP (fun t => decide (t < x))

/-- `np.searchsorted(secs, x, side='right')` on a sorted array: the number
of elements at most `x`. -/
def searchsortedRight (l : List ℚ) (x : ℚ) : ℕ :=
  l.countP (fun t => decide (t ≤ x))

/-- Line 274: `secs = np.insert(secs, start_index, start_time_ts)`
(line 260: `start_index = np.searchsorted(secs, start_time_ts, side='left')`). -/
def secsWithStart (secs : List ℚ) (startTs : ℚ) : List ℚ :=
  secs.insertIdx (searchsortedLeft secs startTs) startTs

/-- Line 276: `secs = np.insert(secs, end_index + 1, end_time_ts)`
(line 267: `end_index` computed on the original array, before the start
insertion). -/
def secsWithBoth (secs : List ℚ) (startTs endTs : ℚ) : List ℚ :=
  (secsWithStart secs startTs).insertIdx (searchsortedRight secs endTs + 1) endTs

/-- Lines 261-264 and 275: the start-boundary value (last sample at or
before the window start, or the earliest value) inserted into `vals`. -/
def valsWithStart (secs vals : List ℚ) (startTs : ℚ) : List ℚ :=
  vals.insertIdx (searchsortedLeft secs startTs)
    (if searchsortedLeft secs startTs = 0 then vals.headD 0
     else vals.getD (searchsortedLeft secs startTs - 1) 0)

/-- Lines 268-271 and 277: the end-boundary value (first sample at or
after the window end, or the latest value) inserted into `vals`. -/
def valsWithBoth (secs vals : List ℚ) (startTs endTs : ℚ) : List ℚ :=
  (valsWithStart secs vals startTs).insertIdx (searchsortedRight secs endTs + 1)
    (if searchsortedRight secs endTs = secs.length then vals.getLastD 0
     else vals.getD (searchsortedRight secs endTs) 0)

/-- Lines 280-282: sort the (timestamp, value) records by timestamp
(`np.argsort` modelled by a stable merge sort — only the ordering of equal
timestamps, which NumPy leaves unspecified, differs). -/
def fetchPairs (secs vals : List ℚ) (startTs endTs : ℚ) : List (ℚ × ℚ) :=
  ((secsWithBoth secs startTs endTs).zip (valsWithBoth secs vals startTs endTs)).mergeSort
    (fun a b => decide (a.1 ≤ b.1))

/-- Lines 285-287: keep only the records inside the inclusive window. -/
def fetchKept (secs vals : List ℚ) (startTs endTs : ℚ) : List (ℚ × ℚ) :=
  (fetchPairs secs vals startTs endTs).filter
    (fun p => decide (startTs ≤ p.1) && decide (p.1 ≤ endTs))

/-- `get_history` after the service response has been decoded: `secs` are
the offset-shifted timestamps, `vals` the values, `startTs`/`endTs` the
window bounds (`self.__startTime.timestamp()`, `self.__endTime.timestamp()`).
Inserts the two boundary samples (lines 259-277), sorts by timestamp
(lines 280-282), then filters to the inclusive window (lines 285-287). -/
def fetchProcess (secs vals : List ℚ) (startTs endTs : ℚ) : List ℚ × List ℚ :=
  ((fetchKept secs vals startTs endTs).map Prod.fst,
   (fetchKept secs vals startTs endTs).map Prod.snd)

/-! ## Orchestrator: the merge step of `DataRetriever.getHistory`
(lines 212-231). -/

/-- The result-collection loop of `getHistory`: futures complete in the
arbitrary order `order` (a permutation of the indices of `pvNames`);
each completed result is appended to the `__rawData` list (line 217), and
the final dict is `zip(self.__pvNames, self.__rawData)` (line 230), i.e.
configuration-ordered names paired with completion-ordered results.
`fetchResult pv` is what `get_history(pv)` returns: `some sig` on success,
`none` (the empty dict `{}`) on failure. -/
def getHistoryMerge (pvNames : List String) (fetchResult : String → Option RawSignal)
    (order : List ℕ) : RawDataset :=
  let rawList := order.map (fun i => fetchResult (pvNames.getD i ""))
  pvNames.zip rawList

/-! ## AlignmentEngine helpers (`DataRetriever.alignHistory`, lines 294-396). -/

/-- Line 315: `relTime = timeRange - timeRange.iloc[0]`. -/
def relTimeOf (secs : List ℚ) : List ℚ :=
  secs.map (fun t => t - secs.headD 0)

/-- Lines 324-330: the keep-mask over the reference values, the
elementwise OR (`idt += idt_k`) across the configured inclusive ranges. -/
def maskOf (vals : List ℚ) (ranges : List (ℚ × ℚ)) : List Bool :=
  vals.map (fun v => ranges.any (fun r => decide (r.1 ≤ v) && decide (v ≤ r.2)))

/-- Lines 332-333: `idt = np.unique(np.sort(np.where(idt)[0]))` — the
ascending positions where the mask is true. -/
def keptIdt (mask : List Bool) : List ℕ :=
  (List.range mask.length).filter (fun i => mask.getD i false)

/-- Line 340: `diff_idt = 1 + np.where(np.diff(idt) > 1)[0]` — positions
inside `idt` whose index does not immediately follow the previous kept
index (`idt` is sorted, so the ℕ subtraction is exact). -/
def diffIdt (idt : List ℕ) : List ℕ :=
  ((List.range (idt.length - 1)).filter
    (fun j => decide (1 < idt.getD (j + 1) 0 - idt.getD j 0))).map (· + 1)

/-- Lines 341-343: `time_inv = append(0, diff(relTime[idt]))`, with the
entries at `diff_idt` overridden by `disTimeAddBack_sec`
(`j ∈ diffIdt idt` holds exactly when `idt[j] - idt[j-1] > 1`). -/
def timeInvList (relTime : List ℚ) (idt : List ℕ) (bridge : ℚ) : List ℚ :=
  (List.range idt.length).map (fun j =>
    if j = 0 then 0
    else if j ∈ diffIdt idt then bridge
    else relTime.getD (idt.getD j 0) 0 - relTime.getD (idt.getD (j - 1) 0) 0)

/-- `np.cumsum` with a running accumulator. -/
def cumsumFrom (acc : ℚ) : List ℚ → List ℚ
  | [] => []
  | a :: l => (acc + a) :: cumsumFrom (acc + a) l

/-- Line 344: `time_cum = np.cumsum(time_inv)`. -/
def cumsum (l : List ℚ) : List ℚ := cumsumFrom 0 l

/-- Lines 346-351: the synchronized start timestamp: `secs.iloc[0]` when
`diff_idt` is empty, else `secs.iloc[diff_idt[0]]` (note: `diff_idt[0]` is
a position within the kept-index sequence, applied directly as an index
into the raw series). -/
def syncStartTime (secs : List ℚ) (d : List ℕ) : ℚ :=
  match d with
  | [] => secs.getD 0 0
  | j :: _ => secs.getD j 0

/-- Tail of `np.interp(x, xp, fp)` after the left-bound check: walk the
remaining knots; `(x0, y0)` is the most recent knot with `x0 ≤ x`.
At the final knot, an exact hit returns its value and anything beyond
returns the right fill (NaN = `none`).  Mismatched column lengths, which
make NumPy raise, fall into the final case. -/
def interpGo (x x0 y0 : ℚ) : List ℚ → List ℚ → Option ℚ
  | x1 :: xs, y1 :: ys =>
    if x ≤ x1 then some (y0 + (y1 - y0) * (x - x0) / (x1 - x0))
    else interpGo x x1 y1 xs ys
  | _, _ => if x = x0 then some y0 else none

/-- `np.interp(x, xp, fp, left=np.nan, right=np.nan)` for an increasing
knot axis `xp`: linear interpolation inside `[xp[0], xp[last]]`, NaN
(`none`) outside. -/
def npInterp (xp fp : List ℚ) (x : ℚ) : Option ℚ :=
  match xp, fp with
  | x0 :: xs, y0 :: ys => if x < x0 then none else interpGo x x0 y0 xs ys
  | _, _ => none

/-- As `interpGo`, over a value column that may contain NaN: a segment
with a missing endpoint yields a missing value (NaN arithmetic). -/
def interpGoO (x x0 : ℚ) (y0 : Option ℚ) :
    List ℚ → List (Option ℚ) → Option ℚ
  | x1 :: xs, y1 :: ys =>
    if x ≤ x1 then
      match y0, y1 with
      | some a, some b => some (a + (b - a) * (x - x0) / (x1 - x0))
      | _, _ => none
    else interpGoO x x1 y1 xs ys
  | _, _ => if x = x0 then y0 else none

/-- `np.interp(x, xp, fp, left=np.nan, right=np.nan)` where `fp` already
contains NaN markers (the second, resampling interpolation of
lines 383-386). -/
def npInterpO (xp : List ℚ) (fp : List (Option ℚ)) (x : ℚ) : Option ℚ :=
  match xp, fp with
  | x0 :: xs, y0 :: ys => if x < x0 then none else interpGoO x x0 y0 xs ys
  | _, _ => none

/-- Lines 358-371, one row of `synData['vals']`: the reference row copies
its own values at the kept indices; a one-sample secondary signal is
filled with its constant; any other secondary signal is interpolated at
the query positions `relTime[idt]` against its own relative-time axis. -/
def rowFor (base_pv : String) (relTime : List ℚ) (idt : List ℕ)
    (pv : String) (raw : RawSignal) : List (Option ℚ) :=
  if pv == base_pv then
    idt.map (fun j => some (raw.vals.getD j 0))
  else if raw.secs.length == 1 then
    List.replicate idt.length (some (raw.vals.getD 0 0))
  else
    (idt.map (fun j => relTime.getD j 0)).map
      (npInterp (raw.secs.map (fun t => t - raw.secs.headD 0)) raw.vals)

/-- The per-PV loop of lines 358-371.  A missing key (line 359) or a
column access on a failed fetch's empty frame (line 363) raises
`KeyError`; `np.interp` against an empty secondary axis raises
`ValueError`. -/
def buildRows (pvNames : List String) (rawData : RawDataset) (base_pv : String)
    (relTime : List ℚ) (idt : List ℕ) : Except String (List (List (Option ℚ))) :=
  pvNames.mapM (fun pv =>
    match lookupPV rawData pv with
    | none => Except.error "KeyError: pv not in rawData"
    | some none => Except.error "KeyError: secs (empty frame from failed fetch)"
    | some (some raw) =>
      if pv == base_pv then Except.ok (rowFor base_pv relTime idt pv raw)
      else if raw.secs.length == 1 then Except.ok (rowFor base_pv relTime idt pv raw)
      else if raw.secs.isEmpty then
        Except.error "ValueError: array of sample points is empty"
      else Except.ok (rowFor base_pv relTime idt pv raw))

/-- `np.arange(start, stop, step)` for rational arguments: `start + k*step`
for `k < ⌈(stop - start) / step⌉` (empty when that quantity is not
positive; `step = 0`, on which NumPy raises, gives `⌈0⌉ = 0`, hence `[]`). -/
def arangeQ (start stop step : ℚ) : List ℚ :=
  (List.range (⌈(stop - start) / step⌉.toNat)).map (fun k : ℕ => start + (k : ℚ) * step)

/-- Line 378: `reSample = np.arange(time_cum[0], time_cum[-1], dtResample_sec)`. -/
def reSampleGrid (time_cum : List ℚ) (dt : ℚ) : List ℚ :=
  arangeQ (time_cum.headD 0) (time_cum.getLastD 0) dt

/-- Lines 346-396, after a non-empty kept-index set has been obtained:
log the start timestamp, build the per-PV rows, truncate to
`len(relTime)` columns (line 373, a no-op since there are `len(idt)`
columns), resample, and store the final dataset. -/
def alignKept (pvNames : List String) (rawData : RawDataset) (base_pv : String)
    (bridge dt : ℚ) (ref : RawSignal) (idt : List ℕ) : StoredSyn × AlignOutcome :=
  let relTime := relTimeOf ref.secs
  let time_cum := cumsum (timeInvList relTime idt bridge)
  let startTime := syncStartTime ref.secs (diffIdt idt)
  match buildRows pvNames rawData base_pv relTime idt with
  | Except.error e => (StoredSyn.skeleton, AlignOutcome.raise e)
  | Except.ok rows =>
    let rows2 := rows.map (fun r => r.take relTime.length)
    let reSample := reSampleGrid time_cum dt
    if time_cum = [] then
      (StoredSyn.skeleton, AlignOutcome.earlyReturn "Error: relTime is empty.")
    else
      let finalRows := rows2.map (fun r => reSample.map (npInterpO time_cum r))
      let D : AlignedData :=
        { startTime := startTime
          relTime := reSample
          vals := finalRows
          duration_hour := time_cum.getLastD 0 / 3600 }
      (StoredSyn.dataset D, AlignOutcome.ok D)

/-- Lines 312-344 once the reference frame is at hand.  An empty reference
makes `timeRange.iloc[0]` raise `IndexError`.  With `Trim` false the
branch of lines 318-320 runs, but line 347 then reads `diff_idt`, which
only the `Trim` branch assigns: `NameError`.  With `Trim` true an empty
kept set prints and returns (lines 335-337). -/
def alignWithRef (pvNames : List String) (rawData : RawDataset) (base_pv : String)
    (val_range : List (ℚ × ℚ)) (bridge dt : ℚ) (Trim : Bool) (ref : RawSignal) :
    StoredSyn × AlignOutcome :=
  if ref.secs.isEmpty then
    (StoredSyn.skeleton, AlignOutcome.raise "IndexError: iloc[0] on empty series")
  else if Trim = false then
    (StoredSyn.skeleton, AlignOutcome.raise "NameError: name diff_idt is not defined")
  else
    let idt := keptIdt (maskOf ref.vals val_range)
    if idt.isEmpty then
      (StoredSyn.skeleton, AlignOutcome.earlyReturn "All data are out of range!")
    else alignKept pvNames rawData base_pv bridge dt ref idt

/-- `alignHistory` over the fields of `alignSetup` it reads (`base_id` is
never read).  Line 310 first resets `__synData` to the skeleton dict, so
every outcome below leaves at least that mutation; line 312 then looks up
the reference frame (`KeyError` on a missing PV or, for a failed fetch's
empty frame, on the missing `secs` column). -/
def alignHistoryCore (pvNames : List String) (rawData : RawDataset) (base_pv : String)
    (val_range : List (ℚ × ℚ)) (bridge dt : ℚ) (Trim : Bool) : StoredSyn × AlignOutcome :=
  match lookupPV rawData base_pv with
  | none => (StoredSyn.skeleton, AlignOutcome.raise "KeyError: base_pv not in rawData")
  | some none => (StoredSyn.skeleton, AlignOutcome.raise "KeyError: secs (empty frame)")
  | some (some ref) => alignWithRef pvNames rawData base_pv val_range bridge dt Trim ref

/-- `DataRetriever.alignHistory` on an already-fetched `RawDataset`
(so the `getHistory` auto-fetch of lines 306-308 does not trigger).
`prior` is the `__synData` value before the call; the returned state
never depends on it, because line 310 overwrites it unconditionally. -/
def alignHistory (prior : StoredSyn) (pvNames : List String) (rawData : RawDataset)
    (s : AlignSetup) : StoredSyn × AlignOutcome :=
  alignHistoryCore pvNames rawData s.base_pv s.val_range
    s.disTimeAddBack_sec s.dtResample_sec s.Trim

/-! ## Orchestrator configuration (`__init__`, `set_base_pv`, `set_property`). -/

/-- Python's `str.upper()` on the ASCII server names in play. -/
def strUpper (s : String) : String :=
  String.mk (s.data.map Char.toUpper)

/-- Lines 65-71: uppercase the requested server name, accept the two known
values and store their base URLs, raise `ValueError` otherwise. -/
def initWebServer (webServer : String) : Except String String :=
  let w := strUpper webServer
  if w = "LCLS" then
    Except.ok "http://lcls-archapp.slac.stanford.edu/retrieval/data/getData.json?pv="
  else if w = "SSRL" then
    Except.ok "http://spear-arch1.slac.stanford.edu/retrieval/data/getData.json?pv="
  else Except.error "ValueError: Invalid web server."

/-- Lines 79-119, `set_base_pv`.  `base_pv` is modelled as `Option String`
with `none`/`""` falsy, matching `if base_pv:`.  The `base_id` recomputation
on line 98 sits after a `raise` and is dead code, so a successful call
stores the caller's `base_id` argument unchanged.  (The tuple/flat-list
massaging of `val_range` on lines 107-112 is a dynamic-typing detail;
`val_range` is modelled already in list-of-pairs form.) -/
def set_base_pv (pvNames : List String) (base_pv : Option String) (base_id : ℤ)
    (val_range : List (ℚ × ℚ)) (disTimeAddBack_sec dtResample_sec : ℚ)
    (Trim : Bool) : Except String AlignSetup :=
  match base_pv with
  | some pv =>
    if pv ≠ "" then
      if pv ∉ pvNames then
        Except.error "ValueError: base PV is not in the list of PV names."
      else
        Except.ok
          { base_id := base_id, base_pv := pv, val_range := val_range
            disTimeAddBack_sec := disTimeAddBack_sec
            dtResample_sec := dtResample_sec, Trim := Trim }
    else
      if base_id < 0 ∨ (pvNames.length : ℤ) ≤ base_id then
        Except.error "ValueError: base ID is out of range."
      else
        Except.ok
          { base_id := base_id, base_pv := "", val_range := val_range
            disTimeAddBack_sec := disTimeAddBack_sec
            dtResample_sec := dtResample_sec, Trim := Trim }
  | none =>
    if base_id < 0 ∨ (pvNames.length : ℤ) ≤ base_id then
      Except.error "ValueError: base ID is out of range."
    else
      Except.ok
        { base_id := base_id, base_pv := "", val_range := val_range
          disTimeAddBack_sec := disTimeAddBack_sec
          dtResample_sec := dtResample_sec, Trim := Trim }

/-- A value passed to `set_property`.  A `time` carries an
already-parsed timestamp (the `datetime.strptime` parse itself is a
library detail outside every claim; a malformed string would raise there). -/
inductive PropValue where
  | str : String → PropValue
  | time : ℚ → PropValue
  | num : ℚ → PropValue
  | strList : List String → PropValue
  | dict : List (String × PropValue) → PropValue
deriving Repr

/-- The private attributes of a `DataRetriever` instance that
`set_property`'s `hasattr` probe can see.  Times are epoch-second
rationals; `alignSetupD` is the raw `alignSetup` dict as `set_property`
stores it. -/
structure RetState where
  pvNames : List String
  webServer : String
  endTime : ℚ
  startTime : Option ℚ
  duration_hour : ℚ
  alignSetupD : List (String × PropValue)
  rawData : RawDataset
  synData : StoredSyn

/-- The attribute names for which `hasattr(self, '_DataRetriever__' + name)`
is true. -/
def knownProps : List String :=
  ["pvNames", "webServer", "endTime", "startTime", "duration_hour",
   "alignSetup", "rawData", "synData"]

/-- Line 163. -/
def requiredAlignKeys : List String :=
  ["base_id", "base_pv", "val_range", "disTimeAddBack_sec", "dtResample_sec", "Trim"]

/-- Lines 142-169, `set_property(property_name, value)` for a single pair.
After the `hasattr` gate, only the five names tested by the `if` chain can
change state; any other known attribute — `webServer` in particular —
falls through every branch and the call returns with no mutation and no
error.  `pvNames` is likewise only assigned when the value is a string. -/
def set_property (st : RetState) (name : String) (v : PropValue) :
    Except String RetState :=
  if name ∈ knownProps then
    if name = "pvNames" then
      match v with
      | PropValue.str s => Except.ok { st with pvNames := [s] }
      | _ => Except.ok st
    else if name = "startTime" then
      match v with
      | PropValue.time q =>
        Except.ok { st with startTime := some q
                            endTime := q + 3600 * st.duration_hour }
      | _ => Except.error "TypeError: strptime() argument must be str"
    else if name = "endTime" then
      match v with
      | PropValue.time q =>
        Except.ok { st with endTime := q
                            startTime := some (q - 3600 * st.duration_hour) }
      | _ => Except.error "TypeError: strptime() argument must be str"
    else if name = "duration_hour" then
      match v with
      | PropValue.num q =>
        Except.ok { st with duration_hour := q
                            startTime := some (st.endTime - 3600 * q) }
      | _ => Except.error "ValueError: duration_hour must be a number"
    else if name = "alignSetup" then
      match v with
      | PropValue.dict d =>
        if requiredAlignKeys.all (fun k => d.any (fun p => p.1 == k)) then
          Except.ok { st with alignSetupD := d }
        else Except.error "ValueError: alignSetup dictionary is missing a key"
      | _ => Except.error "ValueError: alignSetup must be a dictionary"
    else
      Except.ok st
  else Except.error "AttributeError: no such attribute"

/-! ## Helper lemmas -/

theorem cumsumFrom_length (l : List ℚ) (acc : ℚ) :
    (cumsumFrom acc l).length = l.length := by
  induction l generalizing acc with
  | nil => rfl
  | cons a l ih => simp [cumsumFrom, ih]

theorem timeInvList_length (relTime : List ℚ) (idt : List ℕ) (bridge : ℚ) :
    (timeInvList relTime idt bridge).length = idt.length := by
  simp [timeInvList]

theorem cumsum_length (l : List ℚ) : (cumsum l).length = l.length :=
  cumsumFrom_length l 0

theorem lt_of_mem_cumsumFrom (l : List ℚ) (acc : ℚ)
    (hl : ∀ x ∈ l, 0 < x) : ∀ y ∈ cumsumFrom acc l, acc < y := by
  induction l generalizing acc with
  | nil => simp [cumsumFrom]
  | cons a l ih =>
    intro y hy
    rcases (by simpa [cumsumFrom] using hy) with h | h
    · have := hl a (by simp)
      simp [h]; linarith
    · have h1 := ih (acc + a) (fun x hx => hl x (by simp [hx])) y h
      have := hl a (by simp)
      linarith

theorem pairwise_cumsumFrom (l : List ℚ) (acc : ℚ)
    (hl : ∀ x ∈ l, 0 < x) : List.Pairwise (· < ·) (cumsumFrom acc l) := by
  induction l generalizing acc with
  | nil => simp [cumsumFrom]
  | cons a l ih =>
    rw [cumsumFrom, List.pairwise_cons]
    exact ⟨lt_of_mem_cumsumFrom l (acc + a) (fun x hx => hl x (by simp [hx])),
      ih (acc + a) (fun x hx => hl x (by simp [hx]))⟩

theorem keptIdt_pairwise (mask : List Bool) :
    List.Pairwise (· < ·) (keptIdt mask) :=
  (List.pairwise_lt_range mask.length).filter _

theorem keptIdt_mem_lt (mask : List Bool) (i : ℕ) (hi : i ∈ keptIdt mask) :
    i < mask.length := by
  have := (List.mem_filter.mp hi).1
  simpa using this

theorem maskOf_length (vals : List ℚ) (ranges : List (ℚ × ℚ)) :
    (maskOf vals ranges).length = vals.length := by
  simp [maskOf]

theorem relTimeOf_getD (secs : List ℚ) (a : ℕ) (ha : a < secs.length) :
    (relTimeOf secs).getD a 0 = secs.getD a 0 - secs.headD 0 := by
  rw [List.getD_eq_getElem _ _ (by simpa [relTimeOf] using ha),
    List.getD_eq_getElem _ _ ha]
  simp [relTimeOf]

/-- Every entry of `time_inv` after the leading zero is positive, as long
as the reference timestamps are strictly ascending and the bridge duration
is positive. -/
theorem timeInvList_pos (secs : List ℚ) (idt : List ℕ) (bridge : ℚ)
    (hsorted : List.Pairwise (· < ·) secs)
    (hidt : List.Pairwise (· < ·) idt)
    (hmem : ∀ i ∈ idt, i < secs.length)
    (hbridge : 0 < bridge)
    (j : ℕ) (hj0 : j ≠ 0) (hj : j < idt.length) :
    0 < (if j = 0 then 0
         else if j ∈ diffIdt idt then bridge
         else (relTimeOf secs).getD (idt.getD j 0) 0
              - (relTimeOf secs).getD (idt.getD (j - 1) 0) 0) := by
  rw [if_neg hj0]
  by_cases hd : j ∈ diffIdt idt
  · rw [if_pos hd]; exact hbridge
  · rw [if_neg hd]
    have hj1 : j - 1 < idt.length := lt_of_le_of_lt (Nat.sub_le j 1) hj
    have hlt : idt.getD (j - 1) 0 < idt.getD j 0 := by
      rw [List.getD_eq_getElem _ _ hj1, List.getD_eq_getElem _ _ hj]
      exact List.pairwise_iff_getElem.mp hidt _ _ hj1 hj
        (Nat.sub_lt (Nat.pos_of_ne_zero hj0) one_pos)
    have hmj : idt.getD j 0 < secs.length := by
      rw [List.getD_eq_getElem _ _ hj]
      exact hmem _ (List.getElem_mem hj)
    have hmj1 : idt.getD (j - 1) 0 < secs.length := lt_trans hlt hmj
    rw [relTimeOf_getD _ _ hmj, relTimeOf_getD _ _ hmj1]
    have : secs.getD (idt.getD (j - 1) 0) 0 < secs.getD (idt.getD j 0) 0 := by
      rw [List.getD_eq_getElem _ _ hmj1, List.getD_eq_getElem _ _ hmj]
      exact List.pairwise_iff_getElem.mp hsorted _ _ hmj1 hmj hlt
    linarith

/-- `np.interp` with `left=np.nan`: a query strictly below the first knot
gets no value. -/
theorem npInterp_none_of_lt_head (x0 : ℚ) (xs fp : List ℚ) (x : ℚ)
    (h : x < x0) : npInterp (x0 :: xs) fp x = none := by
  cases fp with
  | nil => rfl
  | cons y0 ys => simp [npInterp, h]

theorem interpGo_none_of_forall_lt (xs : List ℚ) (x x0 y0 : ℚ) (ys : List ℚ)
    (h0 : x0 < x) (h : ∀ t ∈ xs, t < x) :
    interpGo x x0 y0 xs ys = none := by
  induction xs generalizing x0 y0 ys with
  | nil => simp [interpGo, ne_of_gt h0]
  | cons x1 xs ih =>
    cases ys with
    | nil => simp [interpGo, ne_of_gt h0]
    | cons y1 ys =>
      rw [interpGo, if_neg (not_le.mpr (h x1 (by simp)))]
      exact ih x1 y1 ys (h x1 (by simp)) (fun t ht => h t (by simp [ht]))

/-- `np.interp` with `right=np.nan`: a query strictly above every knot
gets no value. -/
theorem npInterp_none_of_forall_lt (xp fp : List ℚ) (x : ℚ)
    (h : ∀ t ∈ xp, t < x) : npInterp xp fp x = none := by
  cases xp with
  | nil => cases fp <;> rfl
  | cons x0 xs =>
    cases fp with
    | nil => rfl
    | cons y0 ys =>
      rw [npInterp, if_neg (not_lt.mpr (le_of_lt (h x0 (by simp))))]
      exact interpGo_none_of_forall_lt xs x x0 y0 ys (h x0 (by simp))
        (fun t ht => h t (by simp [ht]))

theorem le_getLastD_of_mem (l : List ℚ) (hl : List.Pairwise (· ≤ ·) l) :
    ∀ (d : ℚ), ∀ t ∈ l, t ≤ l.getLastD d := by
  induction l with
  | nil => simp
  | cons a l ih =>
    intro d t ht
    rw [List.getLastD_cons]
    rcases List.mem_cons.mp ht with rfl | hmem
    · cases l with
      | nil => simp [List.getLastD]
      | cons b l' =>
        have hab : t ≤ b := (List.pairwise_cons.mp hl).1 b (by simp)
        exact le_trans hab (ih (List.pairwise_cons.mp hl).2 t b (by simp))
    · exact ih (List.pairwise_cons.mp hl).2 a t hmem

/-- The dataset that the successful path of `alignKept` stores and
returns (same construction, with the kept-index set spelled out). -/
def alignOkData (val_range : List (ℚ × ℚ)) (bridge dt : ℚ)
    (ref : RawSignal) (rows : List (List (Option ℚ))) : AlignedData :=
  let relTime := relTimeOf ref.secs
  let idt := keptIdt (maskOf ref.vals val_range)
  let time_cum := cumsum (timeInvList relTime idt bridge)
  let reSample := reSampleGrid time_cum dt
  { startTime := syncStartTime ref.secs (diffIdt idt)
    relTime := reSample
    vals := (rows.map (fun r => r.take relTime.length)).map
      (fun r => reSample.map (npInterpO time_cum r))
    duration_hour := time_cum.getLastD 0 / 3600 }

/-- The state/outcome of `alignHistoryCore` on the fully successful path:
reference present and non-empty, trimming on, a non-empty kept set and no
exception from the per-PV row loop. -/
theorem alignHistoryCore_ok (pvNames : List String) (rawData : RawDataset)
    (base_pv : String) (val_range : List (ℚ × ℚ)) (bridge dt : ℚ)
    (ref : RawSignal) (rows : List (List (Option ℚ)))
    (hlookup : lookupPV rawData base_pv = some (some ref))
    (hsecs : ref.secs ≠ [])
    (hidt : keptIdt (maskOf ref.vals val_range) ≠ [])
    (hrows : buildRows pvNames rawData base_pv (relTimeOf ref.secs)
        (keptIdt (maskOf ref.vals val_range)) = Except.ok rows) :
    alignHistoryCore pvNames rawData base_pv val_range bridge dt true
      = (StoredSyn.dataset (alignOkData val_range bridge dt ref rows),
         AlignOutcome.ok (alignOkData val_range bridge dt ref rows)) := by
  have hcum : cumsum (timeInvList (relTimeOf ref.secs)
      (keptIdt (maskOf ref.vals val_range)) bridge) ≠ [] := by
    intro h
    apply hidt
    have := congrArg List.length h
    rwa [cumsum_length, timeInvList_length, List.length_nil,
      List.length_eq_zero] at this
  simp only [alignHistoryCore, hlookup, alignWithRef,
    if_neg (by simpa [List.isEmpty_iff] using hsecs : ¬ref.secs.isEmpty = true),
    Bool.true_eq_false, if_false,
    if_neg (by simpa [List.isEmpty_iff] using hidt :
      ¬(keptIdt (maskOf ref.vals val_range)).isEmpty = true),
    alignKept, hrows, if_neg hcum, alignOkData]

theorem getD_zero_eq_headD (l : List ℚ) (d : ℚ) : l.getD 0 d = l.headD d := by
  cases l <;> rfl

/-! ## Claims -/

/-- The fetch results of a two-signal batch in which both fetches succeed
with distinguishable samples. -/
def twoSignalFetch : String → Option RawSignal := fun pv =>
  if pv = "A" then some ⟨[0], [1]⟩ else some ⟨[0], [2]⟩

/-- C1: refuted.  `getHistory` appends fetch results in completion order
but zips them against `pvNames` in configuration order, so the resulting
RawDataset depends on the completion order of the fetch tasks, and under
the order `[1, 0]` the signal `A` is mapped to the samples fetched for
`B`, not to its own. -/
theorem getHistoryMerge_depends_on_completion_order :
    getHistoryMerge ["A", "B"] twoSignalFetch [0, 1]
      ≠ getHistoryMerge ["A", "B"] twoSignalFetch [1, 0]
    ∧ lookupPV (getHistoryMerge ["A", "B"] twoSignalFetch [1, 0]) "A"
        = some (twoSignalFetch "B") := by
  constructor
  · decide
  · decide

/-- C2: the code path the claim describes crashes.  Whenever the reference
signal is present and non-empty and `alignSetup.Trim` is false,
`alignHistory` raises `NameError` at line 347 (`diff_idt` is assigned only
in the `Trim` branch), instead of completing alignment and resampling. -/
theorem alignHistory_trimFalse_NameError (prior : StoredSyn)
    (pvNames : List String) (rawData : RawDataset) (s : AlignSetup)
    (ref : RawSignal)
    (hlookup : lookupPV rawData s.base_pv = some (some ref))
    (hsecs : ref.secs ≠ []) (htrim : s.Trim = false) :
    alignHistory prior pvNames rawData s
      = (StoredSyn.skeleton,
         AlignOutcome.raise "NameError: name diff_idt is not defined") := by
  simp only [alignHistory, alignHistoryCore, hlookup, alignWithRef, htrim,
    if_neg (by simpa [List.isEmpty_iff] using hsecs : ¬ref.secs.isEmpty = true)]
  simp

/-- C2, witness: the `NameError` on a concrete one-signal dataset with
`Trim = false`. -/
theorem alignHistory_trimFalse_NameError_witness :
    lookupPV [("A", some (⟨[0, 1, 2], [5, 6, 7]⟩ : RawSignal))] "A"
        = some (some (⟨[0, 1, 2], [5, 6, 7]⟩ : RawSignal))
    ∧ ([0, 1, 2] : List ℚ) ≠ []
    ∧ alignHistory StoredSyn.emptyList ["A"]
        [("A", some ⟨[0, 1, 2], [5, 6, 7]⟩)]
        { base_id := 0, base_pv := "A", val_range := [(1, 9)],
          disTimeAddBack_sec := 1, dtResample_sec := 1, Trim := false }
      = (StoredSyn.skeleton,
         AlignOutcome.raise "NameError: name diff_idt is not defined") :=
  ⟨by decide, by decide,
   alignHistory_trimFalse_NameError StoredSyn.emptyList ["A"] _ _
     ⟨[0, 1, 2], [5, 6, 7]⟩ (by decide) (by decide) rfl⟩

/-- C3, counterexample: on a dataset whose reference values all miss the
configured range, `alignHistory` does not raise anything — it returns
normally with the `earlyReturn` outcome — and the stored `__synData` has
already been overwritten with the empty skeleton, so a previously stored
AlignedDataset is replaced. -/
theorem alignHistory_empty_mask_ce :
    alignHistory (StoredSyn.dataset ⟨0, [], [], 0⟩) ["A"]
        [("A", some ⟨[10, 20, 30], [0, 5, 5]⟩)]
        { base_id := 0, base_pv := "A", val_range := [(100, 200)],
          disTimeAddBack_sec := 1, dtResample_sec := 1, Trim := true }
      = (StoredSyn.skeleton, AlignOutcome.earlyReturn "All data are out of range!")
    ∧ StoredSyn.skeleton ≠ StoredSyn.dataset ⟨0, [], [], 0⟩ := by
  constructor
  · decide
  · decide

/-- C3, amended: whenever the reference signal is present and non-empty,
`Trim` is true and no reference value lies in any configured range,
`alignHistory` prints a warning and returns normally (no exception); no
AlignedDataset is produced, but the stored `__synData` is left as the
empty skeleton written at entry, replacing whatever was stored before. -/
theorem alignHistory_empty_mask_earlyReturn (prior : StoredSyn)
    (pvNames : List String) (rawData : RawDataset) (s : AlignSetup)
    (ref : RawSignal)
    (hlookup : lookupPV rawData s.base_pv = some (some ref))
    (hsecs : ref.secs ≠ []) (htrim : s.Trim = true)
    (hmask : keptIdt (maskOf ref.vals s.val_range) = []) :
    alignHistory prior pvNames rawData s
      = (StoredSyn.skeleton,
         AlignOutcome.earlyReturn "All data are out of range!") := by
  simp only [alignHistory, alignHistoryCore, hlookup, alignWithRef, htrim,
    if_neg (by simpa [List.isEmpty_iff] using hsecs : ¬ref.secs.isEmpty = true),
    hmask]
  simp

/-- C3, witness: the amended behaviour on a concrete dataset. -/
theorem alignHistory_empty_mask_earlyReturn_witness :
    lookupPV [("A", some (⟨[10, 20, 30], [0, 5, 5]⟩ : RawSignal))] "A"
        = some (some (⟨[10, 20, 30], [0, 5, 5]⟩ : RawSignal))
    ∧ ([10, 20, 30] : List ℚ) ≠ []
    ∧ keptIdt (maskOf [0, 5, 5] [((100 : ℚ), (200 : ℚ))]) = []
    ∧ alignHistory StoredSyn.skeleton ["A"]
        [("A", some ⟨[10, 20, 30], [0, 5, 5]⟩)]
        { base_id := 0, base_pv := "A", val_range := [(100, 200)],
          disTimeAddBack_sec := 2, dtResample_sec := 3, Trim := true }
      = (StoredSyn.skeleton,
         AlignOutcome.earlyReturn "All data are out of range!") :=
  ⟨by decide, by decide, by decide,
   alignHistory_empty_mask_earlyReturn StoredSyn.skeleton ["A"] _ _
     ⟨[10, 20, 30], [0, 5, 5]⟩ (by decide) (by decide) rfl (by decide)⟩

/-- C9, counterexample: `set_property` with property name `webServer` and
an unknown value succeeds with the state unchanged — the set is silently
ignored, not rejected. -/
theorem set_property_webServer_ignored_ce :
    set_property
        { pvNames := ["A"], webServer := "LCLS", endTime := 0,
          startTime := none, duration_hour := 4, alignSetupD := [],
          rawData := [], synData := StoredSyn.emptyList }
        "webServer" (PropValue.str "BOGUS")
      = Except.ok
        { pvNames := ["A"], webServer := "LCLS", endTime := 0,
          startTime := none, duration_hour := 4, alignSetupD := [],
          rawData := [], synData := StoredSyn.emptyList } := by
  simp [set_property, knownProps]

/-- C9, amended: construction does validate the endpoint — an unknown
(uppercased) server name raises `ValueError` — but `set_property` with the
name `webServer` never fails and never mutates: it is silently ignored
for every value, known or unknown. -/
theorem webServer_validation (w : String) (st : RetState) (v : PropValue)
    (h1 : strUpper w ≠ "LCLS") (h2 : strUpper w ≠ "SSRL") :
    initWebServer w = Except.error "ValueError: Invalid web server."
    ∧ set_property st "webServer" v = Except.ok st := by
  constructor
  · simp [initWebServer, h1, h2]
  · simp [set_property, knownProps]

/-- C9, witness: the amended behaviour at a concrete unknown server name
and a concrete state. -/
theorem webServer_validation_witness :
    strUpper "bogus" ≠ "LCLS" ∧ strUpper "bogus" ≠ "SSRL"
    ∧ (initWebServer "bogus" = Except.error "ValueError: Invalid web server."
       ∧ set_property
           { pvNames := ["A"], webServer := "LCLS", endTime := 0,
             startTime := none, duration_hour := 4, alignSetupD := [],
             rawData := [], synData := StoredSyn.emptyList }
           "webServer" (PropValue.num 7)
         = Except.ok
           { pvNames := ["A"], webServer := "LCLS", endTime := 0,
             startTime := none, duration_hour := 4, alignSetupD := [],
             rawData := [], synData := StoredSyn.emptyList }) :=
  ⟨by decide, by decide,
   webServer_validation "bogus" _ (PropValue.num 7) (by decide) (by decide)⟩

/-- C10: confirmed.  `set_base_pv` with a `base_pv` that is among the
configured names succeeds and stores the caller-supplied `base_id`
unchanged (the recomputation on line 98 is dead code behind a `raise`),
so the stored pair may disagree; and `alignHistory` reads only `base_pv`
from the setup — its result is invariant under any change of `base_id`. -/
theorem set_base_pv_stores_base_id (pvNames : List String) (base_pv : String)
    (base_id : ℤ) (vr : List (ℚ × ℚ)) (dis dt : ℚ) (tr : Bool)
    (hin : base_pv ∈ pvNames) (hne : base_pv ≠ "") :
    set_base_pv pvNames (some base_pv) base_id vr dis dt tr
      = Except.ok
          { base_id := base_id, base_pv := base_pv, val_range := vr,
            disTimeAddBack_sec := dis, dtResample_sec := dt, Trim := tr }
    ∧ ∀ (prior : StoredSyn) (pvs : List String) (raw : RawDataset)
        (s : AlignSetup) (b b' : ℤ),
        alignHistory prior pvs raw { s with base_id := b }
          = alignHistory prior pvs raw { s with base_id := b' } := by
  refine ⟨?_, fun prior pvs raw s b b' => rfl⟩
  simp [set_base_pv, hne, hin]

/-- C10, witness: `"Z"` sits at index 2 of the PV list, yet the call with
`base_id = 0` succeeds and stores `0`. -/
theorem set_base_pv_stores_base_id_witness :
    "Z" ∈ ["X", "Y", "Z"] ∧ "Z" ≠ ""
    ∧ (set_base_pv ["X", "Y", "Z"] (some "Z") 0 [((1 : ℚ), (9 : ℚ))] 1 1 true
        = Except.ok
            { base_id := 0, base_pv := "Z", val_range := [(1, 9)],
              disTimeAddBack_sec := 1, dtResample_sec := 1, Trim := true }
       ∧ ∀ (prior : StoredSyn) (pvs : List String) (raw : RawDataset)
           (s : AlignSetup) (b b' : ℤ),
           alignHistory prior pvs raw { s with base_id := b }
             = alignHistory prior pvs raw { s with base_id := b' }) :=
  ⟨by decide, by decide,
   set_base_pv_stores_base_id ["X", "Y", "Z"] "Z" 0 [(1, 9)] 1 1 true
     (by decide) (by decide)⟩

/-- C4, counterexample: for the cumulative axis `[0, 5/2]` and step 1 the
resample grid is `[0, 1, 2]`: its length is `⌈5/2⌉ = 3`, not
`⌊5/2⌋ = 2` as the claim states. -/
theorem reSampleGrid_length_not_floor_ce :
    reSampleGrid [0, 5 / 2] 1 = [0, 1, 2]
    ∧ (reSampleGrid [0, 5 / 2] 1).length
        ≠ (⌊((([0, 5 / 2] : List ℚ).getLastD 0 - ([0, 5 / 2] : List ℚ).headD 0) / 1)⌋).toNat := by
  have hc : (⌈(5 / 2 : ℚ)⌉ : ℤ) = 3 := by
    rw [Int.ceil_eq_iff] <;> norm_num
  have hf : (⌊(5 / 2 : ℚ)⌋ : ℤ) = 2 := by
    rw [Int.floor_eq_iff] <;> norm_num
  have ht3 : Int.toNat 3 = 3 := rfl
  have ht2 : Int.toNat 2 = 2 := rfl
  constructor
  · norm_num [reSampleGrid, arangeQ, hc, ht3, List.range_succ]
  · norm_num [reSampleGrid, arangeQ, hc, hf, ht3, ht2, List.range_succ]

/-- C4, amended: for a cumulative axis whose first entry is below its last
and a positive step, the grid starts at the first entry, has constant
spacing `dtResample`, stays strictly below the last entry, and its length
is the CEILING (not the floor) of `(last - first) / dtResample`; floor and
ceiling agree exactly when the span is a whole multiple of the step. -/
theorem reSampleGrid_spec (ct : List ℚ) (dt : ℚ)
    (hne : ct ≠ []) (hlt : ct.headD 0 < ct.getLastD 0) (hdt : 0 < dt) :
    (reSampleGrid ct dt).headD 0 = ct.headD 0
    ∧ (∀ i, i + 1 < (reSampleGrid ct dt).length →
        (reSampleGrid ct dt).getD (i + 1) 0 - (reSampleGrid ct dt).getD i 0 = dt)
    ∧ (∀ x ∈ reSampleGrid ct dt, x < ct.getLastD 0)
    ∧ (reSampleGrid ct dt).length = (⌈(ct.getLastD 0 - ct.headD 0) / dt⌉).toNat := by
  have hgrid : reSampleGrid ct dt
      = (List.range (⌈(ct.getLastD 0 - ct.headD 0) / dt⌉.toNat)).map
          (fun k : ℕ => ct.headD 0 + (k : ℚ) * dt) := rfl
  have hq : 0 < (ct.getLastD 0 - ct.headD 0) / dt := div_pos (by linarith) hdt
  have hn : 0 < (⌈(ct.getLastD 0 - ct.headD 0) / dt⌉).toNat :=
    Int.lt_toNat.mpr (by exact_mod_cast Int.ceil_pos.mpr hq)
  refine ⟨?_, ?_, ?_, ?_⟩
  · obtain ⟨m, hm⟩ := Nat.exists_eq_succ_of_ne_zero (Nat.pos_iff_ne_zero.mp hn)
    rw [hgrid, hm, List.range_succ_eq_map]
    norm_num
  · intro i hi
    rw [hgrid] at hi ⊢
    rw [List.length_map, List.length_range] at hi
    rw [List.getD_eq_getElem _ _ (by simp only [List.length_map, List.length_range]; omega),
      List.getD_eq_getElem _ _ (by simp only [List.length_map, List.length_range]; omega)]
    simp only [List.getElem_map, List.getElem_range]
    push_cast
    ring
  · intro x hx
    rw [hgrid, List.mem_map] at hx
    obtain ⟨k, hk, rfl⟩ := hx
    rw [List.mem_range] at hk
    have hkZ : (k : ℤ) < ⌈(ct.getLastD 0 - ct.headD 0) / dt⌉ := Int.lt_toNat.mp hk
    have hkq : (k : ℚ) < (ct.getLastD 0 - ct.headD 0) / dt := by
      have h1 : ((k : ℤ) : ℚ) + 1 ≤ (⌈(ct.getLastD 0 - ct.headD 0) / dt⌉ : ℚ) := by
        exact_mod_cast Int.add_one_le_iff.mpr hkZ
      have h2 := Int.ceil_lt_add_one ((ct.getLastD 0 - ct.headD 0) / dt)
      push_cast at h1
      linarith
    have hmul : (k : ℚ) * dt < ct.getLastD 0 - ct.headD 0 := by
      have := mul_lt_mul_of_pos_right hkq hdt
      rwa [div_mul_cancel₀ _ (ne_of_gt hdt)] at this
    linarith
  · rw [hgrid]
    simp

/-- C4, witness: the amended description at the concrete axis `[0, 3]`
with step 2 (grid `[0, 2]`, length `⌈3/2⌉ = 2`). -/
theorem reSampleGrid_spec_witness :
    ([0, 3] : List ℚ) ≠ []
    ∧ ([0, 3] : List ℚ).headD 0 < ([0, 3] : List ℚ).getLastD 0
    ∧ (0 : ℚ) < 2
    ∧ ((reSampleGrid [0, 3] 2).headD 0 = ([0, 3] : List ℚ).headD 0
       ∧ (∀ i, i + 1 < (reSampleGrid [0, 3] 2).length →
           (reSampleGrid [0, 3] 2).getD (i + 1) 0 - (reSampleGrid [0, 3] 2).getD i 0 = 2)
       ∧ (∀ x ∈ reSampleGrid [0, 3] 2, x < ([0, 3] : List ℚ).getLastD 0)
       ∧ (reSampleGrid [0, 3] 2).length
           = (⌈((([0, 3] : List ℚ).getLastD 0 - ([0, 3] : List ℚ).headD 0) / 2)⌉).toNat) :=
  ⟨by decide, by decide, by decide,
   reSampleGrid_spec [0, 3] 2 (by decide) (by decide) (by decide)⟩

/-- C5, counterexample: reference `secs = [10, 20, 30]`, `vals = [0, 5, 5]`,
range `[1, 9]`: the kept indices are `[1, 2]` (leading sample trimmed,
no internal break, `diff_idt = []`), and the produced start timestamp is
the FIRST RAW timestamp 10, not the first kept timestamp 20. -/
theorem alignHistory_startTime_not_first_kept_ce :
    (alignHistory StoredSyn.emptyList ["A"]
        [("A", some ⟨[10, 20, 30], [0, 5, 5]⟩)]
        { base_id := 0, base_pv := "A", val_range := [(1, 9)],
          disTimeAddBack_sec := 1, dtResample_sec := 4, Trim := true }).2
      = AlignOutcome.ok
          { startTime := 10, relTime := [0, 4, 8],
            vals := [[some 5, some 5, some 5]], duration_hour := 10 / 3600 }
    ∧ diffIdt (keptIdt (maskOf [0, 5, 5] [((1 : ℚ), (9 : ℚ))])) = []
    ∧ ([10, 20, 30] : List ℚ).getD
        ((keptIdt (maskOf [0, 5, 5] [((1 : ℚ), (9 : ℚ))])).headD 0) 0 = 20
    ∧ (10 : ℚ) ≠ 20 := by
  refine ⟨?_, by decide, by decide, by decide⟩
  have hc : (⌈(5 / 2 : ℚ)⌉ : ℤ) = 3 := by
    rw [Int.ceil_eq_iff] <;> norm_num
  have ht : Int.toNat 3 = 3 := rfl
  have hg : reSampleGrid [0, 10] 4 = [0, 4, 8] := by
    norm_num [reSampleGrid, arangeQ, hc, ht, List.range_succ]
  norm_num [alignHistory, alignHistoryCore, alignWithRef, alignKept, lookupPV, keptIdt,
    maskOf, List.range_succ, List.filter, relTimeOf, timeInvList, diffIdt, cumsum,
    cumsumFrom, syncStartTime, buildRows, rowFor, hg, npInterpO,
    interpGoO, List.mapM, List.mapM.loop, List.cons_ne_nil]

/-- C5, amended: on a successful trimmed alignment the synchronized start
timestamp follows the code rule: when `diff_idt` is empty it is the
reference signal FIRST RAW timestamp (index 0, whether or not that sample
was kept); otherwise it is the reference timestamp at raw index
`diff_idt[0]` (the first break position within the kept-index sequence,
applied directly as a raw index). -/
theorem alignHistory_startTime_rule (prior : StoredSyn) (pvNames : List String)
    (rawData : RawDataset) (s : AlignSetup) (ref : RawSignal)
    (rows : List (List (Option ℚ)))
    (htrim : s.Trim = true)
    (hlookup : lookupPV rawData s.base_pv = some (some ref))
    (hsecs : ref.secs ≠ [])
    (hidt : keptIdt (maskOf ref.vals s.val_range) ≠ [])
    (hrows : buildRows pvNames rawData s.base_pv (relTimeOf ref.secs)
        (keptIdt (maskOf ref.vals s.val_range)) = Except.ok rows) :
    ∃ D : AlignedData,
      alignHistory prior pvNames rawData s
        = (StoredSyn.dataset D, AlignOutcome.ok D)
      ∧ D.startTime =
          (if diffIdt (keptIdt (maskOf ref.vals s.val_range)) = []
           then ref.secs.headD 0
           else ref.secs.getD
             ((diffIdt (keptIdt (maskOf ref.vals s.val_range))).headD 0) 0) := by
  refine ⟨alignOkData s.val_range s.disTimeAddBack_sec s.dtResample_sec ref rows,
    ?_, ?_⟩
  · rw [alignHistory, htrim]
    exact alignHistoryCore_ok pvNames rawData s.base_pv s.val_range
      s.disTimeAddBack_sec s.dtResample_sec ref rows hlookup hsecs hidt hrows
  · show syncStartTime ref.secs (diffIdt (keptIdt (maskOf ref.vals s.val_range))) = _
    cases hd : diffIdt (keptIdt (maskOf ref.vals s.val_range)) with
    | nil =>
      rw [if_pos rfl]
      exact getD_zero_eq_headD ref.secs 0
    | cons j rest =>
      rw [if_neg (by simp)]
      simp [syncStartTime]

/-- C5, witness: the amended rule applied to the concrete trimmed dataset
with kept indices `[1, 2]` and no break. -/
theorem alignHistory_startTime_rule_witness :
    (({ base_id := 0, base_pv := "A", val_range := [(1, 9)],
        disTimeAddBack_sec := 1, dtResample_sec := 4,
        Trim := true } : AlignSetup).Trim = true)
    ∧ lookupPV [("A", some (⟨[10, 20, 30], [0, 5, 5]⟩ : RawSignal))] "A"
        = some (some (⟨[10, 20, 30], [0, 5, 5]⟩ : RawSignal))
    ∧ ([10, 20, 30] : List ℚ) ≠ []
    ∧ keptIdt (maskOf [0, 5, 5] [((1 : ℚ), (9 : ℚ))]) ≠ []
    ∧ buildRows ["A"] [("A", some ⟨[10, 20, 30], [0, 5, 5]⟩)] "A"
        (relTimeOf [10, 20, 30]) (keptIdt (maskOf [0, 5, 5] [((1 : ℚ), (9 : ℚ))]))
        = Except.ok [[some 5, some 5]]
    ∧ ∃ D : AlignedData,
        alignHistory StoredSyn.emptyList ["A"]
          [("A", some ⟨[10, 20, 30], [0, 5, 5]⟩)]
          { base_id := 0, base_pv := "A", val_range := [(1, 9)],
            disTimeAddBack_sec := 1, dtResample_sec := 4, Trim := true }
          = (StoredSyn.dataset D, AlignOutcome.ok D)
        ∧ D.startTime =
            (if diffIdt (keptIdt (maskOf ([0, 5, 5] : List ℚ) [((1 : ℚ), (9 : ℚ))])) = []
             then ([10, 20, 30] : List ℚ).headD 0
             else ([10, 20, 30] : List ℚ).getD
               ((diffIdt (keptIdt (maskOf ([0, 5, 5] : List ℚ) [((1 : ℚ), (9 : ℚ))]))).headD 0) 0) :=
  ⟨rfl, by decide, by decide, by decide, rfl,
   alignHistory_startTime_rule StoredSyn.emptyList ["A"]
     [("A", some ⟨[10, 20, 30], [0, 5, 5]⟩)]
     { base_id := 0, base_pv := "A", val_range := [(1, 9)],
       disTimeAddBack_sec := 1, dtResample_sec := 4, Trim := true }
     ⟨[10, 20, 30], [0, 5, 5]⟩ [[some 5, some 5]]
     rfl (by decide) (by decide) (by decide) rfl⟩

/-- The cumulative-axis shape argument, over an arbitrary strictly
ascending index list whose entries index into the reference. -/
theorem timeCum_aux (secs : List ℚ) (idt : List ℕ) (bridge : ℚ)
    (hsorted : List.Pairwise (· < ·) secs)
    (hpair : List.Pairwise (· < ·) idt)
    (hmem : ∀ i ∈ idt, i < secs.length)
    (hbridge : 0 < bridge)
    (hne : idt ≠ []) :
    (cumsum (timeInvList (relTimeOf secs) idt bridge)).headD 1 = 0
    ∧ List.Pairwise (· < ·) (cumsum (timeInvList (relTimeOf secs) idt bridge)) := by
  obtain ⟨a, t, hat⟩ : ∃ a t, timeInvList (relTimeOf secs) idt bridge = a :: t := by
    cases h : timeInvList (relTimeOf secs) idt bridge with
    | nil =>
      exfalso
      apply hne
      have hl := congrArg List.length h
      rwa [timeInvList_length, List.length_nil, List.length_eq_zero] at hl
    | cons a t => exact ⟨a, t, rfl⟩
  have hlen' : t.length + 1 = idt.length := by
    have hl := congrArg List.length hat
    rw [timeInvList_length] at hl
    simp at hl
    omega
  have ha : a = 0 := by
    have h0 : (timeInvList (relTimeOf secs) idt bridge).getD 0 1 = 0 := by
      rw [List.getD_eq_getElem _ _ (by rw [timeInvList_length]; omega)]
      simp only [timeInvList, List.getElem_map, List.getElem_range]
      simp
    rw [hat] at h0
    simpa using h0
  have htpos : ∀ x ∈ t, 0 < x := by
    intro x hx
    obtain ⟨j, hj, hjx⟩ := List.mem_iff_getElem.mp hx
    have hx' : x = (timeInvList (relTimeOf secs) idt bridge).getD (j + 1) 0 := by
      rw [hat, List.getD_cons_succ, List.getD_eq_getElem _ _ hj, hjx]
    have hval : (timeInvList (relTimeOf secs) idt bridge).getD (j + 1) 0
        = (if j + 1 = 0 then 0
           else if j + 1 ∈ diffIdt idt then bridge
           else (relTimeOf secs).getD (idt.getD (j + 1) 0) 0
                - (relTimeOf secs).getD (idt.getD (j + 1 - 1) 0) 0) := by
      rw [List.getD_eq_getElem _ _ (by rw [timeInvList_length]; omega)]
      simp only [timeInvList, List.getElem_map, List.getElem_range]
    rw [hx', hval]
    exact timeInvList_pos secs idt bridge hsorted hpair hmem hbridge
      (j + 1) (Nat.succ_ne_zero j) (by omega)
  have hcum : cumsum (timeInvList (relTimeOf secs) idt bridge)
      = 0 :: cumsumFrom 0 t := by
    rw [hat, ha, cumsum, cumsumFrom]
    norm_num
  refine ⟨?_, ?_⟩
  · rw [hcum]; rfl
  · rw [hcum, List.pairwise_cons]
    exact ⟨fun y hy => lt_of_mem_cumsumFrom t 0 htpos y hy,
      pairwise_cumsumFrom t 0 htpos⟩

/-- C8: confirmed.  For every trimmed alignment with a non-empty kept-index
set, strictly ascending reference timestamps and a positive bridge
duration, the bridged cumulative time axis `time_cum` starts at zero and
is strictly increasing. -/
theorem timeCum_zero_strictMono (secs vals : List ℚ) (ranges : List (ℚ × ℚ))
    (bridge : ℚ)
    (hlen : vals.length = secs.length)
    (hsorted : List.Pairwise (· < ·) secs)
    (hbridge : 0 < bridge)
    (hne : keptIdt (maskOf vals ranges) ≠ []) :
    (cumsum (timeInvList (relTimeOf secs) (keptIdt (maskOf vals ranges)) bridge)).headD 1 = 0
    ∧ List.Pairwise (· < ·)
        (cumsum (timeInvList (relTimeOf secs) (keptIdt (maskOf vals ranges)) bridge)) := by
  refine timeCum_aux secs (keptIdt (maskOf vals ranges)) bridge hsorted
    (keptIdt_pairwise (maskOf vals ranges)) ?_ hbridge hne
  intro i hi
  have h := keptIdt_mem_lt (maskOf vals ranges) i hi
  rwa [maskOf_length, hlen] at h

/-- C8, witness: the cumulative axis on the concrete trimmed reference
`secs = [10, 20, 30, 40]`, `vals = [5, 50, 5, 5]`, range `[1, 9]`,
bridge 1 (kept indices `[0, 2, 3]`, one break). -/
theorem timeCum_zero_strictMono_witness :
    ([5, 50, 5, 5] : List ℚ).length = ([10, 20, 30, 40] : List ℚ).length
    ∧ List.Pairwise (· < ·) ([10, 20, 30, 40] : List ℚ)
    ∧ (0 : ℚ) < 1
    ∧ keptIdt (maskOf [5, 50, 5, 5] [((1 : ℚ), (9 : ℚ))]) ≠ []
    ∧ ((cumsum (timeInvList (relTimeOf [10, 20, 30, 40])
          (keptIdt (maskOf [5, 50, 5, 5] [((1 : ℚ), (9 : ℚ))])) 1)).headD 1 = 0
       ∧ List.Pairwise (· < ·)
          (cumsum (timeInvList (relTimeOf [10, 20, 30, 40])
            (keptIdt (maskOf [5, 50, 5, 5] [((1 : ℚ), (9 : ℚ))])) 1))) :=
  ⟨by decide, by decide, by decide, by decide,
   timeCum_zero_strictMono [10, 20, 30, 40] [5, 50, 5, 5] [(1, 9)] 1
     (by decide) (by decide) (by decide) (by decide)⟩

/-- C6, counterexample: reference `secs = [0, 10, 20]`, `vals = [5, 50, 5]`,
range `[0, 9]`, bridge 1: the kept indices are `[0, 2]`, the bridged
cumulative axis is `[0, 1]`, but the secondary row for the signal
`⟨[0, 20], [0, 20]⟩` is `[some 0, some 20]` — interpolation queried at the
reference relative times `relTime[idt] = [0, 20]`, not at the cumulative
axis, where it would give `[some 0, some 1]`. -/
theorem rowFor_not_at_cumulative_time_ce :
    rowFor "A" (relTimeOf [0, 10, 20])
        (keptIdt (maskOf [5, 50, 5] [((0 : ℚ), (9 : ℚ))])) "B" ⟨[0, 20], [0, 20]⟩
      = [some 0, some 20]
    ∧ (cumsum (timeInvList (relTimeOf [0, 10, 20])
          (keptIdt (maskOf [5, 50, 5] [((0 : ℚ), (9 : ℚ))])) 1)).map
        (npInterp (([0, 20] : List ℚ).map (fun t => t - ([0, 20] : List ℚ).headD 0))
          [0, 20])
      = [some 0, some 1]
    ∧ ([some 0, some 20] : List (Option ℚ)) ≠ [some 0, some 1] := by
  refine ⟨?_, ?_, by decide⟩
  · norm_num [rowFor, relTimeOf, keptIdt, maskOf, List.range_succ, List.filter,
      npInterp, interpGo]
    decide
  · norm_num [relTimeOf, keptIdt, maskOf, List.range_succ, List.filter,
      timeInvList, diffIdt, cumsum, cumsumFrom, npInterp, interpGo]

/-- C6, amended: a non-reference signal with at least two (strictly
ascending) raw samples gets its aligned row by linear interpolation at the
query positions `relTime[idt]` — the REFERENCE relative times at the kept
indices, not the bridged cumulative axis — against its own relative-time
axis; queries outside its own coverage yield the NaN marker. -/
theorem rowFor_interp_at_refRelTime (base_pv : String) (relTime : List ℚ)
    (idt : List ℕ) (pv : String) (raw : RawSignal)
    (hpv : (pv == base_pv) = false) (h2 : 2 ≤ raw.secs.length)
    (hsorted : List.Pairwise (· < ·) raw.secs) :
    rowFor base_pv relTime idt pv raw
      = (idt.map (fun j => relTime.getD j 0)).map
          (npInterp (raw.secs.map (fun t => t - raw.secs.headD 0)) raw.vals)
    ∧ ∀ x : ℚ,
        (x < (raw.secs.map (fun t => t - raw.secs.headD 0)).headD 0
          ∨ (raw.secs.map (fun t => t - raw.secs.headD 0)).getLastD 0 < x) →
        npInterp (raw.secs.map (fun t => t - raw.secs.headD 0)) raw.vals x = none := by
  constructor
  · rw [rowFor, if_neg (by simp [hpv]),
      if_neg (by simp only [beq_iff_eq]; omega)]
  · intro x hx
    obtain ⟨s0, rest, hsr⟩ : ∃ s0 rest, raw.secs = s0 :: rest := by
      cases h : raw.secs with
      | nil => rw [h] at h2; simp at h2
      | cons s0 rest => exact ⟨s0, rest, rfl⟩
    rcases hx with hx | hx
    · rw [hsr] at hx ⊢
      exact npInterp_none_of_lt_head _ _ _ x (by simpa using hx)
    · apply npInterp_none_of_forall_lt
      intro t ht
      have hmono : List.Pairwise (· ≤ ·)
          (raw.secs.map (fun t => t - raw.secs.headD 0)) :=
        List.pairwise_map.mpr (hsorted.imp (fun h => by linarith))
      have hle := le_getLastD_of_mem _ hmono 0 t ht
      linarith

/-- C6, witness: the amended description applied to the concrete secondary
signal `⟨[0, 20], [0, 20]⟩` against reference query positions. -/
theorem rowFor_interp_at_refRelTime_witness :
    (("B" == "A") = false) ∧ 2 ≤ (⟨[0, 20], [0, 20]⟩ : RawSignal).secs.length
    ∧ List.Pairwise (· < ·) (⟨[0, 20], [0, 20]⟩ : RawSignal).secs
    ∧ (rowFor "A" (relTimeOf [0, 10, 20])
          (keptIdt (maskOf [5, 50, 5] [((0 : ℚ), (9 : ℚ))])) "B"
          (⟨[0, 20], [0, 20]⟩ : RawSignal)
        = ((keptIdt (maskOf [5, 50, 5] [((0 : ℚ), (9 : ℚ))])).map
            (fun j => (relTimeOf [0, 10, 20]).getD j 0)).map
            (npInterp ((⟨[0, 20], [0, 20]⟩ : RawSignal).secs.map
              (fun t => t - (⟨[0, 20], [0, 20]⟩ : RawSignal).secs.headD 0))
              (⟨[0, 20], [0, 20]⟩ : RawSignal).vals)
       ∧ ∀ x : ℚ,
          (x < ((⟨[0, 20], [0, 20]⟩ : RawSignal).secs.map
              (fun t => t - (⟨[0, 20], [0, 20]⟩ : RawSignal).secs.headD 0)).headD 0
            ∨ ((⟨[0, 20], [0, 20]⟩ : RawSignal).secs.map
              (fun t => t - (⟨[0, 20], [0, 20]⟩ : RawSignal).secs.headD 0)).getLastD 0 < x) →
          npInterp ((⟨[0, 20], [0, 20]⟩ : RawSignal).secs.map
            (fun t => t - (⟨[0, 20], [0, 20]⟩ : RawSignal).secs.headD 0))
            (⟨[0, 20], [0, 20]⟩ : RawSignal).vals x = none) :=
  ⟨by decide, by decide, by decide,
   rowFor_interp_at_refRelTime "A" (relTimeOf [0, 10, 20])
     (keptIdt (maskOf [5, 50, 5] [((0 : ℚ), (9 : ℚ))])) "B" ⟨[0, 20], [0, 20]⟩
     (by decide) (by decide) (by decide)⟩

theorem searchsortedLeft_le (l : List ℚ) (x : ℚ) : searchsortedLeft l x ≤ l.length :=
  List.countP_le_length _

theorem searchsortedRight_le (l : List ℚ) (x : ℚ) : searchsortedRight l x ≤ l.length :=
  List.countP_le_length _

theorem secsWithStart_length (secs : List ℚ) (startTs : ℚ) :
    (secsWithStart secs startTs).length = secs.length + 1 :=
  List.length_insertIdx _ _ (searchsortedLeft_le secs startTs)

theorem secsWithBoth_length (secs : List ℚ) (startTs endTs : ℚ) :
    (secsWithBoth secs startTs endTs).length = secs.length + 2 := by
  rw [secsWithBoth, List.length_insertIdx _ _
    (by rw [secsWithStart_length]; have := searchsortedRight_le secs endTs; omega),
    secsWithStart_length]

theorem valsWithBoth_length (secs vals : List ℚ) (startTs endTs : ℚ)
    (hv : vals.length = secs.length) :
    (valsWithBoth secs vals startTs endTs).length = vals.length + 2 := by
  have h1 : (valsWithStart secs vals startTs).length = vals.length + 1 :=
    List.length_insertIdx _ _ (by rw [hv]; exact searchsortedLeft_le secs startTs)
  rw [valsWithBoth, List.length_insertIdx _ _
    (by rw [h1, hv]; have := searchsortedRight_le secs endTs; omega), h1]

theorem secsWithBoth_perm (secs : List ℚ) (startTs endTs : ℚ) :
    (secsWithBoth secs startTs endTs).Perm (endTs :: startTs :: secs) := by
  have h1 : (secsWithStart secs startTs).Perm (startTs :: secs) :=
    List.perm_insertIdx _ _ (searchsortedLeft_le secs startTs)
  have hle : searchsortedRight secs endTs + 1 ≤ (secsWithStart secs startTs).length := by
    rw [secsWithStart_length]
    have := searchsortedRight_le secs endTs
    omega
  exact (List.perm_insertIdx _ _ hle).trans (h1.cons endTs)

theorem secsWithBoth_nodup (secs : List ℚ) (startTs endTs : ℚ)
    (hs : List.Pairwise (· < ·) secs)
    (hstart : startTs ∉ secs) (hend : endTs ∉ secs) (hne : startTs ≠ endTs) :
    (secsWithBoth secs startTs endTs).Nodup := by
  apply (secsWithBoth_perm secs startTs endTs).symm.nodup
  rw [List.nodup_cons, List.nodup_cons]
  refine ⟨?_, hstart, hs.nodup⟩
  rw [List.mem_cons]
  rintro (h | h)
  · exact hne h.symm
  · exact hend h

/-- C7, counterexample: service samples sitting exactly on the window
boundaries (timestamps `[0, 10]`, window `[0, 10]`): the inserted boundary
samples duplicate them, and the returned timestamp sequence `[0, 0, 10, 10]`
is not strictly ascending (nothing deduplicates it). -/
theorem fetchProcess_boundary_duplicate_ce :
    fetchProcess [0, 10] [1, 2] 0 10 = ([0, 0, 10, 10], [1, 1, 2, 2])
    ∧ ¬ List.Pairwise (· < ·) ([0, 0, 10, 10] : List ℚ) := by
  constructor
  · norm_num [fetchProcess, fetchKept, fetchPairs, secsWithBoth, secsWithStart,
      valsWithBoth, valsWithStart, searchsortedLeft, searchsortedRight,
      List.countP, List.countP.go, List.insertIdx, List.zip, List.mergeSort,
      List.filter]
  · decide

/-- C7, amended: for a successful fetch whose service timestamps are
strictly ascending and avoid the window boundaries exactly, the returned
timestamps are strictly ascending (hence deduplicated) and lie within the
inclusive window.  When a service sample falls exactly on a boundary, the
inserted boundary sample duplicates its timestamp and only a
non-decreasing order survives (see the counterexample). -/
theorem fetchProcess_strict_sorted_in_window (secs vals : List ℚ)
    (startTs endTs : ℚ)
    (hs : List.Pairwise (· < ·) secs)
    (hv : vals.length = secs.length)
    (hstart : startTs ∉ secs) (hend : endTs ∉ secs) (hlt : startTs < endTs) :
    List.Pairwise (· < ·) (fetchProcess secs vals startTs endTs).1
    ∧ ∀ t ∈ (fetchProcess secs vals startTs endTs).1,
        startTs ≤ t ∧ t ≤ endTs := by
  have htrans : ∀ a b c : ℚ × ℚ, decide (a.1 ≤ b.1) = true →
      decide (b.1 ≤ c.1) = true → decide (a.1 ≤ c.1) = true := by
    intro a b c hab hbc
    rw [decide_eq_true_iff] at *
    exact le_trans hab hbc
  have htotal : ∀ a b : ℚ × ℚ,
      (decide (a.1 ≤ b.1) || decide (b.1 ≤ a.1)) = true := by
    intro a b
    rw [Bool.or_eq_true, decide_eq_true_iff, decide_eq_true_iff]
    exact le_total a.1 b.1
  have hsorted : List.Pairwise (fun a b : ℚ × ℚ => a.1 ≤ b.1)
      (fetchPairs secs vals startTs endTs) := by
    have hms := List.sorted_mergeSort htrans htotal
      ((secsWithBoth secs startTs endTs).zip (valsWithBoth secs vals startTs endTs))
    exact hms.imp (fun h => by rwa [decide_eq_true_iff] at h)
  have hnd2 : (secsWithBoth secs startTs endTs).Nodup :=
    secsWithBoth_nodup secs startTs endTs hs hstart hend (ne_of_lt hlt)
  have hlen2 : (secsWithBoth secs startTs endTs).length
      ≤ (valsWithBoth secs vals startTs endTs).length := by
    rw [secsWithBoth_length, valsWithBoth_length secs vals startTs endTs hv, hv]
  have hmapzip : ((secsWithBoth secs startTs endTs).zip
        (valsWithBoth secs vals startTs endTs)).map Prod.fst
      = secsWithBoth secs startTs endTs :=
    List.map_fst_zip _ _ hlen2
  have hpermfst : ((fetchPairs secs vals startTs endTs).map Prod.fst).Perm
      (secsWithBoth secs startTs endTs) := by
    have hp := List.mergeSort_perm
      ((secsWithBoth secs startTs endTs).zip (valsWithBoth secs vals startTs endTs))
      (fun a b => decide (a.1 ≤ b.1))
    have hm := hp.map Prod.fst
    rwa [hmapzip] at hm
  have hndfst : ((fetchPairs secs vals startTs endTs).map Prod.fst).Nodup :=
    hpermfst.symm.nodup hnd2
  have hndkept : ((fetchKept secs vals startTs endTs).map Prod.fst).Nodup :=
    List.Nodup.sublist ((List.filter_sublist _).map Prod.fst) hndfst
  have hkeptpw : List.Pairwise (fun a b : ℚ × ℚ => a.1 ≤ b.1)
      (fetchKept secs vals startTs endTs) := hsorted.filter _
  have hlepw : List.Pairwise (· ≤ ·) ((fetchKept secs vals startTs endTs).map Prod.fst) :=
    List.pairwise_map.mpr hkeptpw
  constructor
  · exact (hlepw.and hndkept).imp (fun h => lt_of_le_of_ne h.1 h.2)
  · intro t ht
    simp only [fetchProcess] at ht
    rw [List.mem_map] at ht
    obtain ⟨p, hp, rfl⟩ := ht
    have hf := (List.mem_filter.mp hp).2
    simp only [Bool.and_eq_true, decide_eq_true_iff] at hf
    exact hf

/-- C7, witness: the amended invariant on the concrete fetch with service
timestamps `[3, 7]` inside the window `[0, 10]`. -/
theorem fetchProcess_strict_sorted_in_window_witness :
    List.Pairwise (· < ·) ([3, 7] : List ℚ)
    ∧ ([1, 2] : List ℚ).length = ([3, 7] : List ℚ).length
    ∧ (0 : ℚ) ∉ ([3, 7] : List ℚ) ∧ (10 : ℚ) ∉ ([3, 7] : List ℚ)
    ∧ (0 : ℚ) < 10
    ∧ (List.Pairwise (· < ·) (fetchProcess [3, 7] [1, 2] 0 10).1
       ∧ ∀ t ∈ (fetchProcess [3, 7] [1, 2] 0 10).1, (0 : ℚ) ≤ t ∧ t ≤ 10) :=
  ⟨by decide, by decide, by decide, by decide, by decide,
   fetchProcess_strict_sorted_in_window [3, 7] [1, 2] 0 10
     (by decide) (by decide) (by decide) (by decide) (by decide)⟩

end DeviceLife
